import Mathlib

/-!
Verification of the resilient translation pipeline of
`src/translator/base_translator.py` (class `DocumentTranslator`).

The pipeline is shallowly embedded as pure Lean functions over an explicit
state.  External collaborators that live outside `src/` (the segmenter
`stream_segment_json`, the model invoker `translate_text`, the result
recorder `process_translation_results` / `check_and_sort_translations`,
and `clean_json`) are modelled as parameters or, where a claim depends on
their behaviour, as definitions modelled from the spec (each such
definition says so in its doc comment).

Conventions:
* machine strings are Lean `String`s; Python `str.splitlines` /
  `str.strip` are embedded for the newline / whitespace characters that
  actually occur in this pipeline;
* file contents of the Failure Queue (`FAILED_JSON_PATH`) are abstracted
  to the `QueueFile` type: the file is absent, holds content that fails
  `json.load`, holds an empty JSON object, or holds a JSON array of
  `{count, value}` entries.  Writes are modelled as whole-content
  replacement; in every state reachable by the pipeline the new
  serialization is at least as long as the previous content, so the
  `r+`/`seek(0)` write of the source coincides with replacement there;
* each `translate_text` call consumes the next element of an oracle
  `tr : Nat -> CallOutcome` giving the raw outcome of that call and of the
  subsequent `process_translation_results` call;
* Python exceptions that escape the pipeline are the `PyErr` values of an
  `Except` result.
-/

/-- Python `str.splitlines` (for the newline character), accumulator form:
`splitlinesAux acc cs` splits `cs` at each newline, `acc` holding the
(reversed) characters of the current line.  A trailing line without a final
newline is kept; a final newline does not produce an extra empty line. -/
def splitlinesAux : List Char → List Char → List String
  | acc, [] => if acc.isEmpty then [] else [String.mk acc.reverse]
  | acc, c :: rest =>
    if c = '\n' then String.mk acc.reverse :: splitlinesAux [] rest
    else splitlinesAux (c :: acc) rest

/-- Python `text.splitlines()` as used on translated output. -/
def pySplitlines (s : String) : List String :=
  splitlinesAux [] s.data

/-- Python `str.strip()`: drop leading and trailing whitespace. -/
def pyStrip (s : String) : String :=
  String.mk (((s.data.dropWhile Char.isWhitespace).reverse.dropWhile
    Char.isWhitespace).reverse)

/-- Python list slice `l[-4:-1]`: the elements before the last one,
starting at index `len - 4` (clamped at 0). -/
def slice_m4_m1 (l : List String) : List String :=
  l.dropLast.drop (l.length - 4)

/-- Python list slice `l[-3:]` (used by the line-by-line tier). -/
def slice_m3 (l : List String) : List String :=
  l.drop (l.length - 3)

/-- One Failure Queue entry `{count: unit_id, value: source_text}`. -/
structure QEntry where
  count : Int
  value : String
deriving DecidableEq

/-- Abstract content of the Failure Queue file `FAILED_JSON_PATH`. -/
inductive QueueFile where
  /-- the file does not exist -/
  | absent
  /-- the file exists but its content fails `json.load` -/
  | unparsable
  /-- the file holds an empty JSON object `{}` -/
  | emptyObject
  /-- the file holds a JSON array of queue entries (possibly `[]`) -/
  | arr (entries : List QEntry)
deriving DecidableEq

/-- The entries held by the Failure Queue file (none unless it is a JSON
array). -/
def queueEntries : QueueFile → List QEntry
  | .arr es => es
  | _ => []

/-- A segment string produced by the segmenter, abstracted by how
`clean_json` + `json.loads` see it: either it parses as a JSON object with
integer-string keys and string values (the segmenter's format), or it does
not parse. -/
inductive SegText where
  | ok (units : List (Int × String))
  | bad
deriving DecidableEq

/-- Units carried by a segment (none when it does not parse). -/
def segUnits : SegText → List (Int × String)
  | .ok us => us
  | .bad => []

/-- Outcome of one `translate_text` call together with the behaviour of the
subsequent `process_translation_results` call on its output:
* `err`: `translate_text` raises one of the caught exception kinds
  (`RuntimeError` and the like);
* `ret t proc`: `translate_text` returns the text `t`; then
  `process_translation_results` on `t` raises a caught kind (`proc = none`)
  or returns the boolean `b` (`proc = some b`). -/
inductive CallOutcome where
  | err
  | ret (text : String) (proc : Option Bool)
deriving DecidableEq

/-- Python exceptions that can escape the embedded pipeline code. -/
inductive PyErr where
  /-- `UnboundLocalError`: an `except` handler reads `translated_text`
  before any `translate_text` call of the current method has returned -/
  | unboundLocal
  /-- `AttributeError`: `.append` on a non-list loaded from the queue file -/
  | attributeError
deriving DecidableEq

/-- Pipeline state.  `previous_text`, `combined_previous_texts` and the
Failure Queue file are the mutable state of `DocumentTranslator`;
`recorded` is the modelled result store of the external recorder;
`tt` is the current binding of the method-local Python variable
`translated_text` (`none` = unbound); `calls` counts `translate_text`
calls (indexing the oracle); `failed_status` is the pipeline failure
flag.  `roundsLog` (result of each executed batch-retry round) and
`lineRuns` (number of `_retranslate_failed_lines` invocations) are ghost
instrumentation fields no pipeline decision reads. -/
structure PState where
  previous_text : String
  queue : QueueFile
  combined_previous_texts : List String
  recorded : List Int
  tt : Option String
  calls : Nat
  failed_status : Bool
  roundsLog : List Bool
  lineRuns : Nat
deriving DecidableEq

/-- `_mark_segment_as_failed` (src lines 265-290): create the queue file
as `[]` when absent; load it (`JSONDecodeError` gives `[]`, an object
gives a dict); parse the cleaned segment, returning with the file
untouched when that fails; otherwise append one `{count: int(key),
value: value.strip()}` entry per key and write the file back.  Appending
to a loaded dict raises `AttributeError` (the `.error` result). -/
def mark_segment_as_failed (q : QueueFile) (seg : SegText) :
    Except Unit QueueFile :=
  let q0 := if q = QueueFile.absent then QueueFile.arr [] else q
  match q0, seg with
  | .emptyObject, .ok us =>
      if us.isEmpty then .ok .emptyObject else .error ()
  | .emptyObject, .bad => .ok .emptyObject
  | .unparsable, .ok us =>
      .ok (.arr (us.map fun p => ⟨p.1, pyStrip p.2⟩))
  | .unparsable, .bad => .ok .unparsable
  | .arr es, .ok us =>
      .ok (.arr (es ++ us.map fun p => ⟨p.1, pyStrip p.2⟩))
  | .arr es, .bad => .ok (.arr es)
  | .absent, _ => .ok (.arr [])

/-- Modelled from the spec: `process_translation_results` (the Result
Recorder, `translator/translation_checker.py`, not under `src/`) records
the segment's unit-keyed results in the result store when it returns
without raising, and reports whether a new success occurred (spec section 6).
In the embedding a non-raising call appends the segment's unit ids to the
`recorded` list. -/
def recordSegment (seg : SegText) (s : PState) : PState :=
  { s with recorded := s.recorded ++ (segUnits seg).map Prod.fst }

/-- Success path of one primary-pass attempt (src lines 69-82): record the
results, then derive the new context from the cleaned output — lines
`[-4:-1]` joined by newlines when at least 4 lines are present, the
language-pair default `dflt` otherwise — and append the raw text to
`combined_previous_texts`. -/
def primarySuccess (cj : String → String) (dflt : String) (seg : SegText)
    (t : String) (s : PState) : PState :=
  let s1 := recordSegment seg s
  let lines := pySplitlines (cj t)
  let prev :=
    if 4 ≤ lines.length then String.intercalate "\n" (slice_m4_m1 lines)
    else dflt
  { s1 with
    previous_text := prev
    combined_previous_texts := s1.combined_previous_texts ++ [t] }

/-- Second primary-pass attempt for one segment (`retry_count = 1`, src
lines 58-95).  On any caught failure the handler stores the current
`translated_text` binding as `last_valid_translated_text` (raising
`UnboundLocalError` when it is unbound), calls `_mark_segment_as_failed`,
and the `for`-`else` clause appends the (truthy) last valid text to
`combined_previous_texts`. -/
def primarySegmentSnd (cj : String → String) (dflt : String)
    (tr : Nat → CallOutcome) (seg : SegText) (s : PState) :
    Except PyErr PState :=
  match tr s.calls with
  | .err =>
    let s' := { s with calls := s.calls + 1 }
    match s'.tt with
    | none => .error .unboundLocal
    | some lv =>
      match mark_segment_as_failed s'.queue seg with
      | .error _ => .error .attributeError
      | .ok q =>
        let s'' := { s' with queue := q }
        .ok (if lv = "" then s''
          else { s'' with
            combined_previous_texts := s''.combined_previous_texts ++ [lv] })
  | .ret t proc =>
    let s' := { s with tt := some t, calls := s.calls + 1 }
    if t = "" then
      -- `if not translated_text: raise ValueError` (src lines 65-67);
      -- the handler's last valid text is the falsy "" and is not appended
      match mark_segment_as_failed s'.queue seg with
      | .error _ => .error .attributeError
      | .ok q => .ok { s' with queue := q }
    else
      match proc with
      | none =>
        -- `process_translation_results` raised (src line 69 / 84)
        match mark_segment_as_failed s'.queue seg with
        | .error _ => .error .attributeError
        | .ok q =>
          .ok { s' with
                queue := q
                combined_previous_texts := s'.combined_previous_texts ++ [t] }
      | some _ => .ok (primarySuccess cj dflt seg t s')

/-- First primary-pass attempt for one segment (`retry_count = 0`).  The
handler's `last_valid_translated_text` assignment is dropped from the
embedding because the second attempt's handler unconditionally overwrites
it before the `for`-`else` clause can read it; its only observable effect
is the `UnboundLocalError` when `translated_text` is unbound. -/
def primarySegmentFst (cj : String → String) (dflt : String)
    (tr : Nat → CallOutcome) (seg : SegText) (s : PState) :
    Except PyErr PState :=
  match tr s.calls with
  | .err =>
    let s' := { s with calls := s.calls + 1 }
    match s'.tt with
    | none => .error .unboundLocal
    | some _ => primarySegmentSnd cj dflt tr seg s'
  | .ret t proc =>
    let s' := { s with tt := some t, calls := s.calls + 1 }
    if t = "" then primarySegmentSnd cj dflt tr seg s'
    else
      match proc with
      | none => primarySegmentSnd cj dflt tr seg s'
      | some _ => .ok (primarySuccess cj dflt seg t s')

/-- The primary-pass segment loop of `translate_content` (src lines 55-99).
The progress callback is external and cannot change the pipeline state, so
it is not modelled. -/
def primaryLoop (cj : String → String) (dflt : String)
    (tr : Nat → CallOutcome) : List SegText → PState → Except PyErr PState
  | [], s => .ok s
  | seg :: rest, s =>
    match primarySegmentFst cj dflt tr seg s with
    | .error e => .error e
    | .ok s' => primaryLoop cj dflt tr rest s'

/-- Success path of one batch-retry attempt (src lines 162-168): a true
recorder result sets `has_translated_success`; the new context is always
lines `[-4:-1]` of the cleaned output joined by newlines — unlike the
primary pass there is no fewer-than-4-lines fallback to the default. -/
def retrSuccess (cj : String → String) (seg : SegText) (t : String)
    (b : Bool) (hs : Bool) (s : PState) : Bool × PState :=
  let s1 := recordSegment seg s
  let prev := String.intercalate "\n" (slice_m4_m1 (pySplitlines (cj t)))
  (hs || b,
    { s1 with
      previous_text := prev
      combined_previous_texts := s1.combined_previous_texts ++ [t] })

/-- Second batch-retry attempt for one segment (src lines 149-178).  On a
second failure nothing is re-queued: the `for`-`else` clause only appends
the (truthy) last valid text to `combined_previous_texts`. -/
def retrSegmentSnd (cj : String → String) (tr : Nat → CallOutcome)
    (seg : SegText) (hs : Bool) (s : PState) : Except PyErr (Bool × PState) :=
  match tr s.calls with
  | .err =>
    let s' := { s with calls := s.calls + 1 }
    match s'.tt with
    | none => .error .unboundLocal
    | some lv =>
      .ok (hs, if lv = "" then s'
        else { s' with
          combined_previous_texts := s'.combined_previous_texts ++ [lv] })
  | .ret t proc =>
    let s' := { s with tt := some t, calls := s.calls + 1 }
    match proc with
    | none =>
      .ok (hs, if t = "" then s'
        else { s' with
          combined_previous_texts := s'.combined_previous_texts ++ [t] })
    | some b => .ok (retrSuccess cj seg t b hs s')

/-- First batch-retry attempt for one segment (`retry_count = 0`; the dead
`last_valid_translated_text` assignment is dropped as in the primary
pass). -/
def retrSegmentFst (cj : String → String) (tr : Nat → CallOutcome)
    (seg : SegText) (hs : Bool) (s : PState) : Except PyErr (Bool × PState) :=
  match tr s.calls with
  | .err =>
    let s' := { s with calls := s.calls + 1 }
    match s'.tt with
    | none => .error .unboundLocal
    | some _ => retrSegmentSnd cj tr seg hs s'
  | .ret t proc =>
    let s' := { s with tt := some t, calls := s.calls + 1 }
    match proc with
    | none => retrSegmentSnd cj tr seg hs s'
    | some b => .ok (retrSuccess cj seg t b hs s')

/-- The batch-retry segment loop (src lines 147-182), threading
`has_translated_success`. -/
def retrLoop (cj : String → String) (tr : Nat → CallOutcome) :
    List SegText → Bool → PState → Except PyErr (Bool × PState)
  | [], hs, s => .ok (hs, s)
  | seg :: rest, hs, s =>
    match retrSegmentFst cj tr seg hs s with
    | .error e => .error e
    | .ok (hs', s') => retrLoop cj tr rest hs' s'

/-- `retranslate_failed_content` (src lines 112-183): report no work
(`false`) when the queue file is absent, unparsable, or empty; otherwise
hand the snapshot to the segmenter (`stream_segment_json`, external),
returning `false` with the queue untouched when it yields no stream;
otherwise clear the file to `[]` and run the 2-attempt loop on each
produced segment.  `translated_text` is a fresh local of this method, so
the `tt` binding is reset on entry. -/
def retranslate_failed_content (cj : String → String)
    (segmenter : List QEntry → Option (List SegText))
    (tr : Nat → CallOutcome) (s : PState) : Except PyErr (Bool × PState) :=
  let s0 := { s with tt := none }
  match s0.queue with
  | .absent => .ok (false, s0)
  | .unparsable => .ok (false, s0)
  | .emptyObject => .ok (false, s0)
  | .arr es =>
    if es.isEmpty then .ok (false, s0)
    else
      match segmenter es with
      | none => .ok (false, s0)
      | some segs => retrLoop cj tr segs false { s0 with queue := .arr [] }

/-- The batch-retry outer loop of `translate_content` (src lines 101-105):
`for _ in range(3): if not self.failed_status: break;
self.failed_status = self.retranslate_failed_content(...)`.
Each executed round's result is appended to the ghost `roundsLog`. -/
def retryRounds (cj : String → String)
    (segmenter : List QEntry → Option (List SegText))
    (tr : Nat → CallOutcome) : Nat → PState → Except PyErr PState
  | 0, s => .ok s
  | n + 1, s =>
    if s.failed_status then
      match retranslate_failed_content cj segmenter tr s with
      | .error e => .error e
      | .ok (b, s') =>
        retryRounds cj segmenter tr n
          { s' with
            failed_status := b
            roundsLog := s'.roundsLog ++ [b] }
    else .ok s

/-- Success path of one line-by-line attempt (src lines 224-233): record
the single-unit result (modelled from the spec as for `recordSegment`),
strip the translated line, and set the context to its last 3 lines when at
least 3 are present, the language-pair default otherwise. -/
def lineSuccess (dflt : String) (e : QEntry) (t : String) (s : PState) :
    PState :=
  let s1 := { s with recorded := s.recorded ++ [e.count] }
  let lines := pySplitlines (pyStrip t)
  let prev :=
    if 3 ≤ lines.length then String.intercalate "\n" (slice_m3 lines)
    else dflt
  { s1 with previous_text := prev }

/-- Second line-by-line attempt for one entry (src lines 211-244).  The
method-local `last_valid_line_translation` is only ever assigned
immediately before the `break`, so it is still `None` whenever the
`for`-`else` clause runs: exhausting both attempts always re-appends the
original `{count, value}` entry to `new_failed_segments`. -/
def lineEntrySnd (dflt : String) (tr : Nat → CallOutcome) (e : QEntry)
    (nf : List QEntry) (s : PState) : List QEntry × PState :=
  match tr s.calls with
  | .err => (nf ++ [e], { s with calls := s.calls + 1 })
  | .ret t proc =>
    let s' := { s with calls := s.calls + 1 }
    match proc with
    | none => (nf ++ [e], s')
    | some _ => (nf, lineSuccess dflt e t s')

/-- First line-by-line attempt for one entry (`retry = 0`). -/
def lineEntryFst (dflt : String) (tr : Nat → CallOutcome) (e : QEntry)
    (nf : List QEntry) (s : PState) : List QEntry × PState :=
  match tr s.calls with
  | .err => lineEntrySnd dflt tr e nf { s with calls := s.calls + 1 }
  | .ret t proc =>
    let s' := { s with calls := s.calls + 1 }
    match proc with
    | none => lineEntrySnd dflt tr e nf s'
    | some _ => (nf, lineSuccess dflt e t s')

/-- The entry loop of `_retranslate_failed_lines` (src lines 206-246),
accumulating `new_failed_segments`. -/
def lineLoop (dflt : String) (tr : Nat → CallOutcome) :
    List QEntry → List QEntry → PState → List QEntry × PState
  | [], nf, s => (nf, s)
  | e :: rest, nf, s =>
    let p := lineEntryFst dflt tr e nf s
    lineLoop dflt tr rest p.1 p.2

/-- `_retranslate_failed_lines` (src lines 185-252): return untouched when
the queue file is absent, unreadable, or empty; otherwise clear it to `[]`,
retry each snapshotted entry individually with 2 attempts, and finally
persist `new_failed_segments` when nonempty (when empty the file keeps the
`[]` written at the start).  With well-formed `{count, value}` entries (the
only shape this pipeline writes) every exception the body can raise is
caught, so the embedding is a total function. -/
def retranslate_failed_lines (dflt : String) (tr : Nat → CallOutcome)
    (s : PState) : PState :=
  match s.queue with
  | .absent => s
  | .unparsable => s
  | .emptyObject => s
  | .arr es =>
    if es.isEmpty then s
    else
      let p := lineLoop dflt tr es [] { s with queue := .arr [] }
      { p.2 with queue := .arr p.1 }

/-- `translate_content` (src lines 38-110): run the primary pass over the
segments the segmenter yields for the source store (`none` when
`stream_segment_json` returns `None`, src line 49), then up to 3
batch-retry rounds, then — only while still in a failed state — the
line-by-line tier (the ghost `lineRuns` counts its invocations).
`translated_text` is a local of this method, so `tt` starts unbound. -/
def translate_content (cj : String → String) (dflt : String)
    (mainSegs : Option (List SegText))
    (segmenter : List QEntry → Option (List SegText))
    (tr : Nat → CallOutcome) (s0 : PState) : Except PyErr PState :=
  match mainSegs with
  | none => .ok s0
  | some segs =>
    match primaryLoop cj dflt tr segs { s0 with tt := none } with
    | .error e => .error e
    | .ok s1 =>
      match retryRounds cj segmenter tr 3 s1 with
      | .error e => .error e
      | .ok s2 =>
        if s2.failed_status then
          .ok (retranslate_failed_lines dflt tr
            { s2 with lineRuns := s2.lineRuns + 1 })
        else .ok s2

/-- Modelled from the spec: `check_and_sort_translations`
(`translator/translation_checker.py`, not under `src/`) reports the ids of
extracted units that have no recorded translation (spec section 6,
`finalize() -> set of unit_ids still missing`). -/
def missingReport (recorded : List Int) (extractedIds : List Int) :
    List Int :=
  extractedIds.filter (fun c => decide (c ∉ recorded))

/-- Lowercase hex digit for `n < 16` (as `json.dumps` emits in `\uXXXX`). -/
def hexDigitChar (n : Nat) : Char :=
  if n < 10 then Char.ofNat (48 + n) else Char.ofNat (87 + n)

/-- Escaping of one character inside a JSON string literal, exactly as
Python `json.dumps(..., ensure_ascii=False)` does: `"` and `\` get a
backslash, the five named control characters get their short escapes, the
remaining control characters below 0x20 become `\u00XX`, everything else
is emitted verbatim. -/
def escChar (c : Char) : List Char :=
  if c = '"' then ['\\', '"']
  else if c = '\\' then ['\\', '\\']
  else if c = Char.ofNat 8 then ['\\', 'b']
  else if c = Char.ofNat 9 then ['\\', 't']
  else if c = Char.ofNat 10 then ['\\', 'n']
  else if c = Char.ofNat 12 then ['\\', 'f']
  else if c = Char.ofNat 13 then ['\\', 'r']
  else if c.toNat < 32 then
    ['\\', 'u', '0', '0', hexDigitChar (c.toNat / 16),
      hexDigitChar (c.toNat % 16)]
  else [c]

/-- JSON escaping of a character list. -/
def escapeChars (l : List Char) : List Char :=
  (l.map escChar).flatten

/-- A JSON string literal (quotes included) for `s`. -/
def jsonStringChars (s : String) : List Char :=
  '"' :: (escapeChars s.data ++ ['"'])

/-- `_convert_failed_segments_to_json` (src lines 254-256):
`json.dumps({count: value}, indent=4, ensure_ascii=False)`.  `json.dumps`
renders the integer dict key as its decimal string, and with `indent=4`
the output is an opening brace, a newline, four spaces, the quoted key,
a colon and space, the quoted value, a newline and the closing brace. -/
def convert_failed_segments_to_json (e : QEntry) : String :=
  String.mk ('{' :: '\n' :: ' ' :: ' ' :: ' ' :: ' ' ::
    (jsonStringChars (toString e.count) ++
      (':' :: ' ' :: (jsonStringChars e.value ++ ['\n', '}']))))

/-- Numeric value of a hex digit (per RFC 8259, both cases accepted). -/
def hexVal (c : Char) : Option Nat :=
  if '0' ≤ c ∧ c ≤ '9' then some (c.toNat - 48)
  else if 'a' ≤ c ∧ c ≤ 'f' then some (c.toNat - 87)
  else if 'A' ≤ c ∧ c ≤ 'F' then some (c.toNat - 55)
  else none

/-- JSON string-body parser: reads the characters of a string literal
after its opening quote, decoding escape sequences, and returns the
decoded characters together with the input following the closing quote.
The `fuel` argument bounds the number of decoded characters; since every
step consumes at least one input character, fuel equal to the input
length never cuts a parse short. -/
def parseStringBody : Nat → List Char → Option (List Char × List Char)
  | 0, _ => none
  | _ + 1, [] => none
  | fuel + 1, c :: r =>
    if c = '"' then some ([], r)
    else if c = '\\' then
      match r with
      | [] => none
      | d :: r' =>
        if d = '"' then
          (parseStringBody fuel r').map (fun p => ('"' :: p.1, p.2))
        else if d = '\\' then
          (parseStringBody fuel r').map (fun p => ('\\' :: p.1, p.2))
        else if d = '/' then
          (parseStringBody fuel r').map (fun p => ('/' :: p.1, p.2))
        else if d = 'b' then
          (parseStringBody fuel r').map (fun p => (Char.ofNat 8 :: p.1, p.2))
        else if d = 't' then
          (parseStringBody fuel r').map (fun p => (Char.ofNat 9 :: p.1, p.2))
        else if d = 'n' then
          (parseStringBody fuel r').map
            (fun p => (Char.ofNat 10 :: p.1, p.2))
        else if d = 'f' then
          (parseStringBody fuel r').map
            (fun p => (Char.ofNat 12 :: p.1, p.2))
        else if d = 'r' then
          (parseStringBody fuel r').map
            (fun p => (Char.ofNat 13 :: p.1, p.2))
        else if d = 'u' then
          match r' with
          | h1 :: h2 :: h3 :: h4 :: r2 =>
            match hexVal h1, hexVal h2, hexVal h3, hexVal h4 with
            | some a, some b, some c3, some c4 =>
              (parseStringBody fuel r2).map
                (fun p => (Char.ofNat (((a * 16 + b) * 16 + c3) * 16 + c4)
                  :: p.1, p.2))
            | _, _, _, _ => none
          | _ => none
        else none
    else (parseStringBody fuel r).map (fun p => (c :: p.1, p.2))

/-- Skip JSON insignificant whitespace. -/
def skipWs : List Char → List Char
  | [] => []
  | c :: r =>
    if c = ' ' ∨ c = '\n' ∨ c = '\t' ∨ c = '\r' then skipWs r else c :: r

/-- Parse a complete JSON document consisting of a single object with one
string key and one string value, returning the (decoded) key and value.
This is the shape `_convert_failed_segments_to_json` produces. -/
def parseSingleObject (s : String) : Option (String × String) :=
  match skipWs s.data with
  | '{' :: r1 =>
    match skipWs r1 with
    | '"' :: r2 =>
      match parseStringBody r2.length r2 with
      | none => none
      | some (k, r3) =>
        match skipWs r3 with
        | ':' :: r4 =>
          match skipWs r4 with
          | '"' :: r5 =>
            match parseStringBody r5.length r5 with
            | none => none
            | some (v, r6) =>
              match skipWs r6 with
              | '}' :: r7 =>
                if (skipWs r7).isEmpty then
                  some (String.mk k, String.mk v)
                else none
              | _ => none
          | _ => none
        | _ => none
    | _ => none
  | _ => none

/-- Number of entries carrying unit id `c` in a list of ids. -/
def countId (l : List Int) (c : Int) : Nat :=
  l.countP (fun x => decide (x = c))

/-- Number of queue-file entries whose `count` field is `c`. -/
def queueCount (q : QueueFile) (c : Int) : Nat :=
  (queueEntries q).countP (fun e => decide (e.count = c))

theorem countId_append (l1 l2 : List Int) (c : Int) :
    countId (l1 ++ l2) c = countId l1 c + countId l2 c := by
  simp [countId, List.countP_append]

theorem countId_eq_zero (l : List Int) (c : Int) (h : c ∉ l) :
    countId l c = 0 := by
  simp only [countId, List.countP_eq_zero]
  intro a ha
  simp only [decide_eq_true_eq]
  rintro rfl
  exact h ha

theorem countId_eq_one (l : List Int) (c : Int) (hn : l.Nodup)
    (hm : c ∈ l) : countId l c = 1 := by
  induction l with
  | nil => cases hm
  | cons a l ih =>
    rcases List.nodup_cons.mp hn with ⟨ha, hl⟩
    rcases List.mem_cons.mp hm with h | h
    · subst h
      have h0 := countId_eq_zero l c ha
      simp only [countId] at h0 ⊢
      rw [List.countP_cons, h0]
      simp
    · have hac : ¬(a = c) := fun he => ha (he ▸ h)
      have h1 := ih hl h
      simp only [countId] at h1 ⊢
      rw [List.countP_cons, h1]
      simp [hac]

theorem countP_map_entry (us : List (Int × String)) (c : Int) :
    (us.map fun p => (⟨p.1, pyStrip p.2⟩ : QEntry)).countP
      (fun e => decide (e.count = c)) = countId (us.map Prod.fst) c := by
  simp only [countId, List.countP_map]
  exact List.countP_congr (fun a _ => Iff.rfl)

theorem mark_queueCount (q : QueueFile) (seg : SegText) (q' : QueueFile)
    (h : mark_segment_as_failed q seg = .ok q') (c : Int) :
    queueCount q' c =
      queueCount q c + countId ((segUnits seg).map Prod.fst) c := by
  cases q <;> cases seg
  case emptyObject.ok us =>
    by_cases hus : us = [] <;> simp [mark_segment_as_failed, hus] at h
    subst hus
    subst h
    simp [queueCount, queueEntries, segUnits, countId]
  all_goals simp [mark_segment_as_failed] at h
  all_goals subst h
  all_goals
    simp [queueCount, queueEntries, segUnits, countId, List.countP_append,
      countP_map_entry]
  all_goals exact List.countP_congr (fun a _ => Iff.rfl)

theorem primarySegmentSnd_cases (cj : String → String) (dflt : String)
    (tr : Nat → CallOutcome) (seg : SegText) (s s' : PState)
    (h : primarySegmentSnd cj dflt tr seg s = .ok s') :
    (s'.recorded = s.recorded ++ (segUnits seg).map Prod.fst ∧
      s'.queue = s.queue) ∨
    (s'.recorded = s.recorded ∧
      mark_segment_as_failed s.queue seg = .ok s'.queue) := by
  unfold primarySegmentSnd at h
  dsimp only at h
  split at h
  · -- translate_text raised
    split at h
    · exact absurd h (by simp)
    · split at h
      · exact absurd h (by simp)
      · rename_i q hm
        right
        cases h
        split <;> simp_all
  · -- translate_text returned text t
    split at h
    · -- empty text: ValueError path
      split at h
      · exact absurd h (by simp)
      · rename_i q hm
        right
        cases h
        simp_all
    · split at h
      · -- process_translation_results raised
        split at h
        · exact absurd h (by simp)
        · rename_i q hm
          right
          cases h
          simp_all
      · -- success
        left
        cases h
        simp [primarySuccess, recordSegment]

theorem primarySegmentFst_cases (cj : String → String) (dflt : String)
    (tr : Nat → CallOutcome) (seg : SegText) (s s' : PState)
    (h : primarySegmentFst cj dflt tr seg s = .ok s') :
    (s'.recorded = s.recorded ++ (segUnits seg).map Prod.fst ∧
      s'.queue = s.queue) ∨
    (s'.recorded = s.recorded ∧
      mark_segment_as_failed s.queue seg = .ok s'.queue) := by
  unfold primarySegmentFst at h
  dsimp only at h
  split at h
  · split at h
    · exact absurd h (by simp)
    · simpa using primarySegmentSnd_cases cj dflt tr seg _ s' h
  · split at h
    · simpa using primarySegmentSnd_cases cj dflt tr seg _ s' h
    · split at h
      · simpa using primarySegmentSnd_cases cj dflt tr seg _ s' h
      · left
        cases h
        simp [primarySuccess, recordSegment]

theorem primarySegmentSnd_misc (cj : String → String) (dflt : String)
    (tr : Nat → CallOutcome) (seg : SegText) (s s' : PState)
    (h : primarySegmentSnd cj dflt tr seg s = .ok s') :
    s'.failed_status = s.failed_status ∧ s'.roundsLog = s.roundsLog ∧
      s'.lineRuns = s.lineRuns := by
  unfold primarySegmentSnd at h
  dsimp only at h
  split at h
  · split at h
    · exact absurd h (by simp)
    · split at h
      · exact absurd h (by simp)
      · cases h
        split <;> simp
  · split at h
    · split at h
      · exact absurd h (by simp)
      · cases h
        simp
    · split at h
      · split at h
        · exact absurd h (by simp)
        · cases h
          simp
      · cases h
        simp [primarySuccess, recordSegment]

theorem primarySegmentFst_misc (cj : String → String) (dflt : String)
    (tr : Nat → CallOutcome) (seg : SegText) (s s' : PState)
    (h : primarySegmentFst cj dflt tr seg s = .ok s') :
    s'.failed_status = s.failed_status ∧ s'.roundsLog = s.roundsLog ∧
      s'.lineRuns = s.lineRuns := by
  unfold primarySegmentFst at h
  dsimp only at h
  split at h
  · split at h
    · exact absurd h (by simp)
    · simpa using primarySegmentSnd_misc cj dflt tr seg _ s' h
  · split at h
    · simpa using primarySegmentSnd_misc cj dflt tr seg _ s' h
    · split at h
      · simpa using primarySegmentSnd_misc cj dflt tr seg _ s' h
      · cases h
        simp [primarySuccess, recordSegment]

theorem primaryLoop_misc (cj : String → String) (dflt : String)
    (tr : Nat → CallOutcome) :
    ∀ (segs : List SegText) (s s' : PState),
    primaryLoop cj dflt tr segs s = .ok s' →
    s'.failed_status = s.failed_status ∧ s'.roundsLog = s.roundsLog ∧
      s'.lineRuns = s.lineRuns := by
  intro segs
  induction segs with
  | nil =>
    intro s s' h
    cases h
    exact ⟨rfl, rfl, rfl⟩
  | cons seg rest ih =>
    intro s s' h
    unfold primaryLoop at h
    cases hf : primarySegmentFst cj dflt tr seg s with
    | error e => rw [hf] at h; cases h
    | ok s1 =>
      rw [hf] at h
      obtain ⟨h1, h2, h3⟩ := primarySegmentFst_misc cj dflt tr seg s s1 hf
      obtain ⟨h4, h5, h6⟩ := ih s1 s' h
      exact ⟨h4.trans h1, h5.trans h2, h6.trans h3⟩

theorem primaryLoop_frame (cj : String → String) (dflt : String)
    (tr : Nat → CallOutcome) :
    ∀ (segs : List SegText) (s s' : PState),
    primaryLoop cj dflt tr segs s = .ok s' → ∀ c : Int,
    c ∉ segs.flatMap (fun g => (segUnits g).map Prod.fst) →
    (c ∈ s'.recorded ↔ c ∈ s.recorded) ∧
      queueCount s'.queue c = queueCount s.queue c := by
  intro segs
  induction segs with
  | nil =>
    intro s s' h c _
    cases h
    exact ⟨Iff.rfl, rfl⟩
  | cons seg rest ih =>
    intro s s' h c hc
    rw [List.flatMap_cons, List.mem_append] at hc
    push_neg at hc
    obtain ⟨hc1, hc2⟩ := hc
    unfold primaryLoop at h
    cases hf : primarySegmentFst cj dflt tr seg s with
    | error e => rw [hf] at h; cases h
    | ok s1 =>
      rw [hf] at h
      obtain ⟨hrec, hq⟩ := ih s1 s' h c hc2
      rcases primarySegmentFst_cases cj dflt tr seg s s1 hf with
        ⟨h1, h2⟩ | ⟨h1, h2⟩
      · constructor
        · rw [hrec, h1, List.mem_append]
          simp [hc1]
        · rw [hq, h2]
      · constructor
        · rw [hrec, h1]
        · rw [hq, mark_queueCount s.queue seg s1.queue h2 c,
            countId_eq_zero _ _ hc1]
          omega

theorem primaryLoop_unit (cj : String → String) (dflt : String)
    (tr : Nat → CallOutcome) :
    ∀ (segs : List SegText) (s s' : PState),
    primaryLoop cj dflt tr segs s = .ok s' → ∀ c : Int,
    queueCount s.queue c = 0 → c ∉ s.recorded →
    (segs.flatMap (fun g => (segUnits g).map Prod.fst)).Nodup →
    c ∈ segs.flatMap (fun g => (segUnits g).map Prod.fst) →
    (c ∈ s'.recorded ∧ queueCount s'.queue c = 0) ∨
      (c ∉ s'.recorded ∧ queueCount s'.queue c = 1) := by
  intro segs
  induction segs with
  | nil => intro s s' _ c _ _ _ hm; cases hm
  | cons seg rest ih =>
    intro s s' h c hq0 hr0 hnd hm
    rw [List.flatMap_cons] at hnd hm
    rw [List.nodup_append] at hnd
    obtain ⟨hnd1, hnd2, hdisj⟩ := hnd
    unfold primaryLoop at h
    cases hf : primarySegmentFst cj dflt tr seg s with
    | error e => rw [hf] at h; cases h
    | ok s1 =>
      rw [hf] at h
      rcases List.mem_append.mp hm with hmg | hmr
      · -- the unit belongs to this segment
        have hnotr : c ∉ rest.flatMap (fun g => (segUnits g).map Prod.fst) :=
          fun hr => hdisj hmg hr
        obtain ⟨hfr, hfq⟩ := primaryLoop_frame cj dflt tr rest s1 s' h c hnotr
        rcases primarySegmentFst_cases cj dflt tr seg s s1 hf with
          ⟨h1, h2⟩ | ⟨h1, h2⟩
        · left
          constructor
          · rw [hfr, h1, List.mem_append]
            exact Or.inr hmg
          · rw [hfq, h2, hq0]
        · right
          constructor
          · rw [hfr, h1]
            exact hr0
          · rw [hfq, mark_queueCount s.queue seg s1.queue h2 c, hq0,
              countId_eq_one _ _ hnd1 hmg]
      · -- the unit belongs to a later segment
        have hng : c ∉ (segUnits seg).map Prod.fst :=
          fun hg => hdisj hg hmr
        rcases primarySegmentFst_cases cj dflt tr seg s s1 hf with
          ⟨h1, h2⟩ | ⟨h1, h2⟩
        · refine ih s1 s' h c ?_ ?_ hnd2 hmr
          · rw [h2, hq0]
          · rw [h1, List.mem_append]
            simp [hr0, hng]
        · refine ih s1 s' h c ?_ ?_ hnd2 hmr
          · rw [mark_queueCount s.queue seg s1.queue h2 c, hq0,
              countId_eq_zero _ _ hng]
          · rw [h1]
            exact hr0

theorem missingReport_partition (recorded ids : List Int) :
    ∀ c ∈ ids,
    (c ∈ recorded ∧ c ∉ missingReport recorded ids) ∨
      (c ∉ recorded ∧ c ∈ missingReport recorded ids) := by
  intro c hc
  by_cases h : c ∈ recorded
  · left
    refine ⟨h, fun hmem => ?_⟩
    have := List.of_mem_filter hmem
    simp [h] at this
  · right
    refine ⟨h, List.mem_filter.mpr ⟨hc, by simp [h]⟩⟩

theorem retrSegmentSnd_frame (cj : String → String) (tr : Nat → CallOutcome)
    (seg : SegText) (hs : Bool) (s : PState) (hs' : Bool) (s' : PState)
    (h : retrSegmentSnd cj tr seg hs s = .ok (hs', s')) :
    s'.queue = s.queue ∧ s'.roundsLog = s.roundsLog ∧
      s'.lineRuns = s.lineRuns ∧ s'.failed_status = s.failed_status := by
  unfold retrSegmentSnd at h
  dsimp only at h
  split at h
  · split at h
    · exact absurd h (by simp)
    · cases h
      split <;> simp
  · split at h
    · cases h
      split <;> simp
    · cases h
      simp [retrSuccess, recordSegment]

theorem retrSegmentFst_frame (cj : String → String) (tr : Nat → CallOutcome)
    (seg : SegText) (hs : Bool) (s : PState) (hs' : Bool) (s' : PState)
    (h : retrSegmentFst cj tr seg hs s = .ok (hs', s')) :
    s'.queue = s.queue ∧ s'.roundsLog = s.roundsLog ∧
      s'.lineRuns = s.lineRuns ∧ s'.failed_status = s.failed_status := by
  unfold retrSegmentFst at h
  dsimp only at h
  split at h
  · split at h
    · exact absurd h (by simp)
    · simpa using retrSegmentSnd_frame cj tr seg hs _ hs' s' h
  · split at h
    · simpa using retrSegmentSnd_frame cj tr seg hs _ hs' s' h
    · cases h
      simp [retrSuccess, recordSegment]

theorem retrLoop_frame (cj : String → String) (tr : Nat → CallOutcome) :
    ∀ (segs : List SegText) (hs : Bool) (s : PState) (hs' : Bool)
      (s' : PState),
    retrLoop cj tr segs hs s = .ok (hs', s') →
    s'.queue = s.queue ∧ s'.roundsLog = s.roundsLog ∧
      s'.lineRuns = s.lineRuns ∧ s'.failed_status = s.failed_status := by
  intro segs
  induction segs with
  | nil =>
    intro hs s hs' s' h
    cases h
    exact ⟨rfl, rfl, rfl, rfl⟩
  | cons seg rest ih =>
    intro hs s hs' s' h
    unfold retrLoop at h
    cases hf : retrSegmentFst cj tr seg hs s with
    | error e => rw [hf] at h; cases h
    | ok p =>
      rw [hf] at h
      obtain ⟨h1, h2, h3, h4⟩ := retrSegmentFst_frame cj tr seg hs s p.1 p.2
        (by rw [hf])
      obtain ⟨h5, h6, h7, h8⟩ := ih p.1 p.2 hs' s' h
      exact ⟨h5.trans h1, h6.trans h2, h7.trans h3, h8.trans h4⟩

theorem retranslate_failed_content_no_work (cj : String → String)
    (segmenter : List QEntry → Option (List SegText))
    (tr : Nat → CallOutcome) (s : PState)
    (hq : s.queue = .absent ∨ s.queue = .unparsable ∨
      s.queue = .emptyObject ∨ s.queue = .arr []) :
    retranslate_failed_content cj segmenter tr s =
      .ok (false, { s with tt := none }) := by
  rcases hq with h | h | h | h <;>
    simp [retranslate_failed_content, h]

theorem retranslate_failed_content_queue (cj : String → String)
    (segmenter : List QEntry → Option (List SegText))
    (tr : Nat → CallOutcome) (s : PState) (b : Bool) (s' : PState)
    (h : retranslate_failed_content cj segmenter tr s = .ok (b, s')) :
    s'.queue = s.queue ∨ s'.queue = .arr [] := by
  unfold retranslate_failed_content at h
  dsimp only at h
  split at h
  · cases h; left; rfl
  · cases h; left; rfl
  · cases h; left; rfl
  · split at h
    · cases h; left; rfl
    · split at h
      · cases h; left; rfl
      · right
        obtain ⟨h1, _, _, _⟩ := retrLoop_frame cj tr _ false _ b s' h
        simpa using h1

theorem retranslate_failed_content_misc (cj : String → String)
    (segmenter : List QEntry → Option (List SegText))
    (tr : Nat → CallOutcome) (s : PState) (b : Bool) (s' : PState)
    (h : retranslate_failed_content cj segmenter tr s = .ok (b, s')) :
    s'.roundsLog = s.roundsLog ∧ s'.lineRuns = s.lineRuns ∧
      s'.failed_status = s.failed_status := by
  unfold retranslate_failed_content at h
  dsimp only at h
  split at h
  · cases h; exact ⟨rfl, rfl, rfl⟩
  · cases h; exact ⟨rfl, rfl, rfl⟩
  · cases h; exact ⟨rfl, rfl, rfl⟩
  · split at h
    · cases h; exact ⟨rfl, rfl, rfl⟩
    · split at h
      · cases h; exact ⟨rfl, rfl, rfl⟩
      · obtain ⟨_, h2, h3, h4⟩ := retrLoop_frame cj tr _ false _ b s' h
        simpa using ⟨h2, h3, h4⟩

theorem retranslate_failed_content_entries (cj : String → String)
    (segmenter : List QEntry → Option (List SegText))
    (tr : Nat → CallOutcome) (s : PState) (b : Bool) (s' : PState)
    (hsegtot : ∀ es, es ≠ [] → segmenter es ≠ none)
    (h : retranslate_failed_content cj segmenter tr s = .ok (b, s')) :
    queueEntries s'.queue = [] := by
  unfold retranslate_failed_content at h
  dsimp only at h
  split at h
  case _ heq => cases h; simp [queueEntries, heq]
  case _ heq => cases h; simp [queueEntries, heq]
  case _ heq => cases h; simp [queueEntries, heq]
  case _ es heq =>
    split at h
    case isTrue hes =>
      cases h
      simp only [heq]
      simp [queueEntries, List.isEmpty_iff.mp hes]
    case isFalse hes =>
      split at h
      case _ hseg =>
        exact absurd hseg (hsegtot es (fun he => hes (by simp [he])))
      case _ segs hseg =>
        obtain ⟨h1, _, _, _⟩ := retrLoop_frame cj tr segs false _ b s' h
        simp only [h1]
        simp [queueEntries]

theorem retryRounds_not_failed (cj : String → String)
    (segmenter : List QEntry → Option (List SegText))
    (tr : Nat → CallOutcome) (n : Nat) (s : PState)
    (h : s.failed_status = false) :
    retryRounds cj segmenter tr n s = .ok s := by
  cases n <;> simp [retryRounds, h]

theorem retryRounds_log (cj : String → String)
    (segmenter : List QEntry → Option (List SegText))
    (tr : Nat → CallOutcome) :
    ∀ (n : Nat) (s s' : PState),
    retryRounds cj segmenter tr n s = .ok s' →
    ∃ post : List Bool, s'.roundsLog = s.roundsLog ++ post ∧
      post.length ≤ n ∧
      ∀ i, i + 1 < post.length → post.getD i false = true := by
  intro n
  induction n with
  | zero =>
    intro s s' h
    cases h
    exact ⟨[], by simp, by simp, fun i hi => absurd hi (by simp)⟩
  | succ n ih =>
    intro s s' h
    unfold retryRounds at h
    split at h
    case isFalse =>
      cases h
      exact ⟨[], by simp, by simp, fun i hi => absurd hi (by simp)⟩
    case isTrue hfs =>
      cases hr : retranslate_failed_content cj segmenter tr s with
      | error e => rw [hr] at h; cases h
      | ok p =>
        obtain ⟨b, s1⟩ := p
        rw [hr] at h
        obtain ⟨hlog, _, _⟩ :=
          retranslate_failed_content_misc cj segmenter tr s b s1 hr
        cases b with
        | false =>
          dsimp only at h
          have h2 :
              (Except.ok
                  ({ s1 with
                     failed_status := false
                     roundsLog := s1.roundsLog ++ [false] } : PState) :
                Except PyErr PState) =
                Except.ok s' :=
            (retryRounds_not_failed cj segmenter tr n _ rfl).symm.trans h
          cases h2
          refine ⟨[false], ?_, by simp, fun i hi => absurd hi (by simp)⟩
          simp [hlog]
        | true =>
          obtain ⟨post, hp1, hp2, hp3⟩ := ih _ s' h
          refine ⟨true :: post, ?_, by simpa using hp2, ?_⟩
          · simp only [hp1]
            simp [hlog]
          · intro i hi
            cases i with
            | zero => simp
            | succ j =>
              rw [List.getD_cons_succ]
              exact hp3 j (by simpa using Nat.lt_of_succ_lt_succ hi)

theorem retryRounds_lineRuns (cj : String → String)
    (segmenter : List QEntry → Option (List SegText))
    (tr : Nat → CallOutcome) :
    ∀ (n : Nat) (s s' : PState),
    retryRounds cj segmenter tr n s = .ok s' →
    s'.lineRuns = s.lineRuns := by
  intro n
  induction n with
  | zero => intro s s' h; cases h; rfl
  | succ n ih =>
    intro s s' h
    unfold retryRounds at h
    split at h
    case isFalse => cases h; rfl
    case isTrue hfs =>
      cases hr : retranslate_failed_content cj segmenter tr s with
      | error e => rw [hr] at h; cases h
      | ok p =>
        obtain ⟨b, s1⟩ := p
        rw [hr] at h
        obtain ⟨_, hlr, _⟩ :=
          retranslate_failed_content_misc cj segmenter tr s b s1 hr
        have := ih _ s' h
        simpa [hlr] using this

theorem retryRounds_empty (cj : String → String)
    (segmenter : List QEntry → Option (List SegText))
    (tr : Nat → CallOutcome)
    (hsegtot : ∀ es, es ≠ [] → segmenter es ≠ none) :
    ∀ (n : Nat) (s s' : PState),
    retryRounds cj segmenter tr n s = .ok s' →
    s' = s ∨ queueEntries s'.queue = [] := by
  intro n
  induction n with
  | zero => intro s s' h; cases h; exact Or.inl rfl
  | succ n ih =>
    intro s s' h
    unfold retryRounds at h
    split at h
    case isFalse => cases h; exact Or.inl rfl
    case isTrue hfs =>
      cases hr : retranslate_failed_content cj segmenter tr s with
      | error e => rw [hr] at h; cases h
      | ok p =>
        obtain ⟨b, s1⟩ := p
        rw [hr] at h
        have hent : queueEntries s1.queue = [] :=
          retranslate_failed_content_entries cj segmenter tr s b s1 hsegtot hr
        rcases ih _ s' h with heq | hemp
        · right
          rw [heq]
          simpa using hent
        · exact Or.inr hemp

theorem lineEntrySnd_cases (dflt : String) (tr : Nat → CallOutcome)
    (e : QEntry) (nf : List QEntry) (s : PState) (nf' : List QEntry)
    (s' : PState) (h : lineEntrySnd dflt tr e nf s = (nf', s')) :
    (nf' = nf ∧ s'.recorded = s.recorded ++ [e.count] ∧
      s'.queue = s.queue ∧ s'.lineRuns = s.lineRuns) ∨
    (nf' = nf ++ [e] ∧ s'.recorded = s.recorded ∧
      s'.queue = s.queue ∧ s'.lineRuns = s.lineRuns) := by
  unfold lineEntrySnd at h
  dsimp only at h
  split at h
  · cases h
    right
    simp
  · split at h
    · cases h
      right
      simp
    · cases h
      left
      simp [lineSuccess]

theorem lineEntryFst_cases (dflt : String) (tr : Nat → CallOutcome)
    (e : QEntry) (nf : List QEntry) (s : PState) (nf' : List QEntry)
    (s' : PState) (h : lineEntryFst dflt tr e nf s = (nf', s')) :
    (nf' = nf ∧ s'.recorded = s.recorded ++ [e.count] ∧
      s'.queue = s.queue ∧ s'.lineRuns = s.lineRuns) ∨
    (nf' = nf ++ [e] ∧ s'.recorded = s.recorded ∧
      s'.queue = s.queue ∧ s'.lineRuns = s.lineRuns) := by
  unfold lineEntryFst at h
  dsimp only at h
  split at h
  · simpa using lineEntrySnd_cases dflt tr e nf _ nf' s' h
  · split at h
    · simpa using lineEntrySnd_cases dflt tr e nf _ nf' s' h
    · cases h
      left
      simp [lineSuccess]

theorem lineLoop_sublist (dflt : String) (tr : Nat → CallOutcome) :
    ∀ (es nf : List QEntry) (s : PState),
    ∃ add : List QEntry, (lineLoop dflt tr es nf s).1 = nf ++ add ∧
      add.Sublist es := by
  intro es
  induction es with
  | nil => intro nf s; exact ⟨[], by simp [lineLoop], by simp⟩
  | cons e rest ih =>
    intro nf s
    unfold lineLoop
    rcases hp : lineEntryFst dflt tr e nf s with ⟨nf1, s1⟩
    rcases lineEntryFst_cases dflt tr e nf s nf1 s1 hp with
      ⟨h1, _, _, _⟩ | ⟨h1, _, _, _⟩
    · obtain ⟨add, ha1, ha2⟩ := ih nf1 s1
      subst h1
      exact ⟨add, by simpa using ha1, ha2.cons e⟩
    · obtain ⟨add, ha1, ha2⟩ := ih nf1 s1
      subst h1
      refine ⟨e :: add, ?_, ha2.cons₂ e⟩
      rw [ha1]
      simp
  
theorem lineLoop_misc (dflt : String) (tr : Nat → CallOutcome) :
    ∀ (es nf : List QEntry) (s : PState),
    (lineLoop dflt tr es nf s).2.queue = s.queue ∧
      (lineLoop dflt tr es nf s).2.lineRuns = s.lineRuns := by
  intro es
  induction es with
  | nil => intro nf s; exact ⟨rfl, rfl⟩
  | cons e rest ih =>
    intro nf s
    unfold lineLoop
    rcases hp : lineEntryFst dflt tr e nf s with ⟨nf1, s1⟩
    rcases lineEntryFst_cases dflt tr e nf s nf1 s1 hp with
      ⟨_, _, h3, h4⟩ | ⟨_, _, h3, h4⟩ <;>
    · obtain ⟨i1, i2⟩ := ih nf1 s1
      exact ⟨i1.trans h3, i2.trans h4⟩

theorem lineLoop_frame (dflt : String) (tr : Nat → CallOutcome) :
    ∀ (es nf : List QEntry) (s : PState) (nf' : List QEntry) (s' : PState),
    lineLoop dflt tr es nf s = (nf', s') → ∀ e : QEntry,
    e.count ∉ es.map QEntry.count →
    (e.count ∈ s'.recorded ↔ e.count ∈ s.recorded) ∧
      (e ∈ nf' ↔ e ∈ nf) := by
  intro es
  induction es with
  | nil =>
    intro nf s nf' s' h e _
    cases h
    exact ⟨Iff.rfl, Iff.rfl⟩
  | cons g rest ih =>
    intro nf s nf' s' h e he
    simp only [List.map_cons, List.mem_cons, not_or] at he
    obtain ⟨he1, he2⟩ := he
    unfold lineLoop at h
    rcases hp : lineEntryFst dflt tr g nf s with ⟨nf1, s1⟩
    rw [hp] at h
    obtain ⟨f1, f2⟩ := ih nf1 s1 nf' s' h e (by simpa using he2)
    rcases lineEntryFst_cases dflt tr g nf s nf1 s1 hp with
      ⟨h1, h2, _, _⟩ | ⟨h1, h2, _, _⟩
    · constructor
      · rw [f1, h2, List.mem_append]
        simp [he1]
      · rw [f2, h1]
    · constructor
      · rw [f1, h2]
      · rw [f2, h1, List.mem_append]
        have : ¬(e = g) := fun hg => he1 (by rw [hg])
        simp [this]

theorem lineLoop_unit (dflt : String) (tr : Nat → CallOutcome) :
    ∀ (es nf : List QEntry) (s : PState) (nf' : List QEntry) (s' : PState),
    lineLoop dflt tr es nf s = (nf', s') →
    (es.map QEntry.count).Nodup →
    ∀ e ∈ es, e.count ∉ s.recorded → e ∉ nf →
    (e.count ∈ s'.recorded ∧ e ∉ nf') ∨
      (e.count ∉ s'.recorded ∧ e ∈ nf') := by
  intro es
  induction es with
  | nil => intro nf s nf' s' _ _ e hm; cases hm
  | cons g rest ih =>
    intro nf s nf' s' h hnd e hm hr0 hn0
    rw [List.map_cons, List.nodup_cons] at hnd
    obtain ⟨hg, hnd2⟩ := hnd
    unfold lineLoop at h
    rcases hp : lineEntryFst dflt tr g nf s with ⟨nf1, s1⟩
    rw [hp] at h
    rcases List.mem_cons.mp hm with hme | hme
    · -- e is the head entry
      subst hme
      have hnr : e.count ∉ rest.map QEntry.count := hg
      obtain ⟨f1, f2⟩ := lineLoop_frame dflt tr rest nf1 s1 nf' s' h e hnr
      rcases lineEntryFst_cases dflt tr e nf s nf1 s1 hp with
        ⟨h1, h2, _, _⟩ | ⟨h1, h2, _, _⟩
      · left
        constructor
        · rw [f1, h2, List.mem_append]
          simp
        · rw [f2, h1]
          exact hn0
      · right
        constructor
        · rw [f1, h2]
          exact hr0
        · rw [f2, h1, List.mem_append]
          simp
    · -- e is a later entry
      have hge : g.count ≠ e.count :=
        fun hc => hg (hc ▸ List.mem_map_of_mem QEntry.count hme)
      rcases lineEntryFst_cases dflt tr g nf s nf1 s1 hp with
        ⟨h1, h2, _, _⟩ | ⟨h1, h2, _, _⟩
      · refine ih nf1 s1 nf' s' h hnd2 e hme ?_ ?_
        · rw [h2, List.mem_append]
          simp [hr0, Ne.symm hge]
        · rw [h1]
          exact hn0
      · refine ih nf1 s1 nf' s' h hnd2 e hme ?_ ?_
        · rw [h2]
          exact hr0
        · rw [h1, List.mem_append]
          have : ¬(e = g) := fun hq => hge (by rw [hq])
          simp [hn0, this]

/-- C6: if the Failure Queue file is absent, empty (an empty JSON array or
object), or unparsable, `retranslate_failed_content` returns `false`
without raising (its only state change is the reset of the method-local
`translated_text` binding), and `_retranslate_failed_lines` returns with
the state completely untouched; in particular already-recorded successes
(`recorded`) are left untouched in both tiers. -/
theorem c6_empty_queue (cj : String → String)
    (segmenter : List QEntry → Option (List SegText))
    (tr : Nat → CallOutcome) (dflt : String) (s : PState)
    (hq : s.queue = .absent ∨ s.queue = .unparsable ∨
      s.queue = .emptyObject ∨ s.queue = .arr []) :
    retranslate_failed_content cj segmenter tr s =
      .ok (false, { s with tt := none }) ∧
    retranslate_failed_lines dflt tr s = s := by
  refine ⟨retranslate_failed_content_no_work cj segmenter tr s hq, ?_⟩
  rcases hq with h | h | h | h <;> simp [retranslate_failed_lines, h]

/-- Witness for C6 at a concrete state with an absent queue file. -/
theorem c6_empty_queue_witness :
    retranslate_failed_content (fun t => t) (fun _ => none)
      (fun _ => CallOutcome.err)
      ⟨"p", .absent, [], [3], none, 0, true, [], 0⟩ =
      .ok (false, ⟨"p", .absent, [], [3], none, 0, true, [], 0⟩) ∧
    retranslate_failed_lines "D" (fun _ => CallOutcome.err)
      ⟨"p", .absent, [], [3], none, 0, true, [], 0⟩ =
      ⟨"p", .absent, [], [3], none, 0, true, [], 0⟩ :=
  c6_empty_queue (fun t => t) (fun _ => none) (fun _ => CallOutcome.err) "D"
    ⟨"p", .absent, [], [3], none, 0, true, [], 0⟩ (Or.inl rfl)

/-- C9: when the cleaned segment parses as a JSON object,
`_mark_segment_as_failed` rewrites the queue file to the array holding all
pre-existing entries in their original order followed by exactly one entry
`{count: int(key), value: value.strip()}` per key of the object (the
pre-existing entries being those of the array the file held, and none when
the file was absent); when the cleaned segment does not parse, the entries
are unchanged — at most an absent file is created holding the empty
array. -/
theorem c9_mark_segment (q : QueueFile) :
    (∀ us : List (Int × String),
      (q = .absent ∨ ∃ es, q = .arr es) →
      mark_segment_as_failed q (.ok us) =
        .ok (.arr (queueEntries q ++ us.map fun p => ⟨p.1, pyStrip p.2⟩))) ∧
    mark_segment_as_failed q .bad =
      .ok (if q = .absent then .arr [] else q) := by
  constructor
  · intro us hq
    rcases hq with h | ⟨es, h⟩ <;> subst h <;>
      simp [mark_segment_as_failed, queueEntries]
  · cases q <;> simp [mark_segment_as_failed]

/-- Witness for C9: appending to an existing array and a non-parsing
segment over an unparsable file. -/
theorem c9_mark_segment_witness :
    mark_segment_as_failed (.arr [⟨1, "x"⟩]) (.ok [(2, " y ")]) =
      .ok (.arr ([⟨1, "x"⟩] ++ [(Int.ofNat 2, " y ")].map
        fun p => ⟨p.1, pyStrip p.2⟩)) ∧
    mark_segment_as_failed .unparsable .bad =
      .ok (if QueueFile.unparsable = QueueFile.absent then .arr []
        else .unparsable) :=
  ⟨(c9_mark_segment (.arr [⟨1, "x"⟩])).1 [(2, " y ")] (Or.inr ⟨_, rfl⟩),
    (c9_mark_segment .unparsable).2⟩

/-- C7 (the claim fails on the code): with a transient, caught-kind
invocation error on the very first translation attempt of the very first
segment, the `except` handler's assignment
`last_valid_translated_text = translated_text` reads the still-unbound
local `translated_text`, and the resulting `UnboundLocalError` is not
among the caught exception kinds, so it propagates out of
`translate_content` to the caller. -/
theorem c7_unbound_local :
    translate_content (fun t => t) "D" (some [SegText.ok [(1, "line1")]])
      (fun _ => none) (fun _ => CallOutcome.err)
      ⟨"p", .absent, [], [], none, 0, true, [], 0⟩ =
      .error .unboundLocal := rfl

/-- C1 counterexample: a batch-retry round over the queued unit 1 in which
the single segment fails both of its 2 attempts (the recorder raises on
both) ends with the Failure Queue file holding the empty array — the
failed segment's unit is NOT re-queued, only its raw text is saved to the
continuity log. -/
theorem c1_counterexample :
    retranslate_failed_content (fun t => t)
      (fun _ => some [SegText.ok [(1, "a")]])
      (fun _ => CallOutcome.ret "x" none)
      ⟨"p", .arr [⟨1, "a"⟩], [], [], none, 0, true, [], 0⟩ =
      .ok (false, ⟨"p", .arr [], ["x"], [], some "x", 2, true, [], 0⟩) := rfl

/-- C1 amended: the batch-retry tier never appends to the Failure Queue —
`_mark_segment_as_failed` is not called there, so after any completed
round the queue file is either untouched (an early-exit round) or exactly
the empty array written by the snapshot-and-clear; units of segments that
fail both attempts are dropped from the queue rather than re-queued. -/
theorem c1_amended (cj : String → String)
    (segmenter : List QEntry → Option (List SegText))
    (tr : Nat → CallOutcome) (s : PState) (b : Bool) (s' : PState)
    (h : retranslate_failed_content cj segmenter tr s = .ok (b, s')) :
    s'.queue = s.queue ∨ s'.queue = .arr [] :=
  retranslate_failed_content_queue cj segmenter tr s b s' h

/-- Witness for C1 amended at the counterexample's input. -/
theorem c1_amended_witness :
    (⟨"p", .arr [], ["x"], [], some "x", 2, true, [], 0⟩ : PState).queue =
      (⟨"p", .arr [⟨1, "a"⟩], [], [], none, 0, true, [], 0⟩ : PState).queue ∨
    (⟨"p", .arr [], ["x"], [], some "x", 2, true, [], 0⟩ : PState).queue =
      .arr [] :=
  c1_amended (fun t => t) (fun _ => some [SegText.ok [(1, "a")]])
    (fun _ => CallOutcome.ret "x" none)
    ⟨"p", .arr [⟨1, "a"⟩], [], [], none, 0, true, [], 0⟩ false
    ⟨"p", .arr [], ["x"], [], some "x", 2, true, [], 0⟩ rfl

/-- C3 counterexample: the same successful 1-line translated output
("x", fewer than 4 lines) updates the Context Window differently in the
two tiers — the primary pass resets `previous_text` to the language-pair
default "DEFAULT" (src lines 74-79), while the batch-retry tier sets it to
the newline-join of the empty slice `[-4:-1]`, i.e. the empty string (src
lines 166-167), never the default.  The update is therefore not computed
uniformly, and the batch-retry tier has no fewer-than-4-lines fallback. -/
theorem c3_counterexample :
    primarySegmentFst (fun t => t) "DEFAULT"
      (fun _ => CallOutcome.ret "x" (some true)) (SegText.ok [(1, "a")])
      ⟨"p", .absent, [], [], none, 0, true, [], 0⟩ =
      .ok ⟨"DEFAULT", .absent, ["x"], [1], some "x", 1, true, [], 0⟩ ∧
    retrSegmentFst (fun t => t)
      (fun _ => CallOutcome.ret "x" (some true)) (SegText.ok [(1, "a")])
      false ⟨"p", .absent, [], [], none, 0, true, [], 0⟩ =
      .ok (true, ⟨"", .absent, ["x"], [1], some "x", 1, true, [], 0⟩) ∧
    ("" : String) ≠ "DEFAULT" :=
  ⟨rfl, rfl, by decide⟩

/-- C3 amended: after a successful translation call the primary pass sets
the Context Window to lines `[-4:-1]` of the cleaned output joined by
newlines when at least 4 lines are present and to the language-pair
default otherwise, while the batch-retry tier always sets it to the
newline-join of lines `[-4:-1]` with no fewer-than-4-lines fallback. -/
theorem c3_amended :
    (∀ (cj : String → String) (dflt : String) (tr : Nat → CallOutcome)
      (seg : SegText) (s : PState) (t : String) (b : Bool),
      tr s.calls = CallOutcome.ret t (some b) → t ≠ "" →
      ∃ s' : PState, primarySegmentFst cj dflt tr seg s = .ok s' ∧
        s'.previous_text =
          (if 4 ≤ (pySplitlines (cj t)).length
           then String.intercalate "\n" (slice_m4_m1 (pySplitlines (cj t)))
           else dflt)) ∧
    (∀ (cj : String → String) (tr : Nat → CallOutcome) (seg : SegText)
      (hs : Bool) (s : PState) (t : String) (b : Bool),
      tr s.calls = CallOutcome.ret t (some b) →
      ∃ (hs' : Bool) (s' : PState),
        retrSegmentFst cj tr seg hs s = .ok (hs', s') ∧
        s'.previous_text =
          String.intercalate "\n" (slice_m4_m1 (pySplitlines (cj t)))) := by
  constructor
  · intro cj dflt tr seg s t b ho ht
    refine ⟨primarySuccess cj dflt seg t
      { s with tt := some t, calls := s.calls + 1 }, ?_, ?_⟩
    · unfold primarySegmentFst
      rw [ho]
      dsimp only
      rw [if_neg ht]
    · simp [primarySuccess, recordSegment]
  · intro cj tr seg hs s t b ho
    refine ⟨(retrSuccess cj seg t b hs
        { s with tt := some t, calls := s.calls + 1 }).1,
      (retrSuccess cj seg t b hs
        { s with tt := some t, calls := s.calls + 1 }).2, ?_, ?_⟩
    · unfold retrSegmentFst
      rw [ho]
    · simp [retrSuccess, recordSegment]

/-- Witness for C3 amended: both context-update rules at a concrete
4-line output. -/
theorem c3_amended_witness :
    (∃ s' : PState,
      primarySegmentFst (fun t => t) "D"
        (fun _ => CallOutcome.ret "a\nb\nc\nd" (some true))
        (SegText.ok [(1, "u")])
        ⟨"p", .absent, [], [], none, 0, true, [], 0⟩ = .ok s' ∧
      s'.previous_text =
        (if 4 ≤ (pySplitlines ((fun t => t) "a\nb\nc\nd")).length
         then String.intercalate "\n"
           (slice_m4_m1 (pySplitlines ((fun t => t) "a\nb\nc\nd")))
         else "D")) ∧
    (∃ (hs' : Bool) (s' : PState),
      retrSegmentFst (fun t => t)
        (fun _ => CallOutcome.ret "a\nb\nc\nd" (some true))
        (SegText.ok [(1, "u")]) false
        ⟨"p", .absent, [], [], none, 0, true, [], 0⟩ = .ok (hs', s') ∧
      s'.previous_text =
        String.intercalate "\n"
          (slice_m4_m1 (pySplitlines ((fun t => t) "a\nb\nc\nd")))) :=
  ⟨c3_amended.1 (fun t => t) "D"
      (fun _ => CallOutcome.ret "a\nb\nc\nd" (some true))
      (SegText.ok [(1, "u")])
      ⟨"p", .absent, [], [], none, 0, true, [], 0⟩ "a\nb\nc\nd" true rfl
      (by decide),
    c3_amended.2 (fun t => t)
      (fun _ => CallOutcome.ret "a\nb\nc\nd" (some true))
      (SegText.ok [(1, "u")]) false
      ⟨"p", .absent, [], [], none, 0, true, [], 0⟩ "a\nb\nc\nd" true rfl⟩

/-- C4: the batch-retry outer loop executes at most 3 rounds — the ghost
log of executed rounds never exceeds length 3 — and stops early as soon as
a round reports no successful recovery: every executed round before the
last returned `true`, so a `false` round is always the final one; and a
round whose queue file is absent, unparsable, or empty at its start
reports `false` (no work) immediately. -/
theorem c4_tier_cap (cj : String → String)
    (segmenter : List QEntry → Option (List SegText))
    (tr : Nat → CallOutcome) (s s' : PState)
    (h0 : s.roundsLog = [])
    (h : retryRounds cj segmenter tr 3 s = .ok s') :
    s'.roundsLog.length ≤ 3 ∧
    (∀ i, i + 1 < s'.roundsLog.length → s'.roundsLog.getD i false = true) ∧
    (∀ sq : PState,
      (sq.queue = .absent ∨ sq.queue = .unparsable ∨
        sq.queue = .emptyObject ∨ sq.queue = .arr []) →
      retranslate_failed_content cj segmenter tr sq =
        .ok (false, { sq with tt := none })) := by
  obtain ⟨post, hp1, hp2, hp3⟩ := retryRounds_log cj segmenter tr 3 s s' h
  rw [h0] at hp1
  simp only [List.nil_append] at hp1
  subst hp1
  exact ⟨hp2, hp3,
    fun sq hq => retranslate_failed_content_no_work cj segmenter tr sq hq⟩

/-- Witness for C4: a run whose single round finds an absent queue. -/
theorem c4_tier_cap_witness :
    (⟨"p", .absent, [], [], none, 0, false, [false], 0⟩ :
        PState).roundsLog.length ≤ 3 ∧
    (∀ i, i + 1 < (⟨"p", .absent, [], [], none, 0, false, [false], 0⟩ :
        PState).roundsLog.length →
      (⟨"p", .absent, [], [], none, 0, false, [false], 0⟩ :
        PState).roundsLog.getD i false = true) ∧
    (∀ sq : PState,
      (sq.queue = .absent ∨ sq.queue = .unparsable ∨
        sq.queue = .emptyObject ∨ sq.queue = .arr []) →
      retranslate_failed_content (fun t => t) (fun _ => none)
        (fun _ => CallOutcome.err) sq = .ok (false, { sq with tt := none })) :=
  c4_tier_cap (fun t => t) (fun _ => none) (fun _ => CallOutcome.err)
    ⟨"p", .absent, [], [], none, 0, true, [], 0⟩
    ⟨"p", .absent, [], [], none, 0, false, [false], 0⟩ rfl rfl

/-- C2: with the segments partitioning the extracted units (their ids are
produced without duplicates, the Segmenter contract), a fresh run (absent
queue file, empty result store) whose primary pass completes leaves every
extracted unit either recorded with no queue entry or unrecorded with
exactly one `{count, value}` entry in the Failure Queue; and after the
full pipeline run every extracted unit is in exactly one of
{recorded-success, final-missing-report}, the report being the modelled
`check_and_sort_translations` complement of the result store. -/
theorem c2_coverage (cj : String → String) (dflt : String)
    (segmenter : List QEntry → Option (List SegText))
    (tr : Nat → CallOutcome) (segs : List SegText) (s0 s1 sF : PState)
    (hq : s0.queue = .absent) (hrec : s0.recorded = [])
    (hnodup : (segs.flatMap (fun g => (segUnits g).map Prod.fst)).Nodup)
    (hp : primaryLoop cj dflt tr segs { s0 with tt := none } = .ok s1)
    (_hrun : translate_content cj dflt (some segs) segmenter tr s0 = .ok sF) :
    (∀ c ∈ segs.flatMap (fun g => (segUnits g).map Prod.fst),
      (c ∈ s1.recorded ∧ queueCount s1.queue c = 0) ∨
        (c ∉ s1.recorded ∧ queueCount s1.queue c = 1)) ∧
    (∀ c ∈ segs.flatMap (fun g => (segUnits g).map Prod.fst),
      (c ∈ sF.recorded ∧
        c ∉ missingReport sF.recorded
          (segs.flatMap (fun g => (segUnits g).map Prod.fst))) ∨
      (c ∉ sF.recorded ∧
        c ∈ missingReport sF.recorded
          (segs.flatMap (fun g => (segUnits g).map Prod.fst)))) := by
  constructor
  · intro c hc
    refine primaryLoop_unit cj dflt tr segs _ s1 hp c ?_ ?_ hnodup hc
    · simp [queueCount, queueEntries, hq]
    · simp [hrec]
  · exact missingReport_partition sF.recorded _

/-- Witness for C2: a 2-segment run in which every call succeeds. -/
theorem c2_coverage_witness :
    (∀ c ∈ [SegText.ok [((1 : Int), "a")], SegText.ok [(2, "b")]].flatMap
        (fun g => (segUnits g).map Prod.fst),
      (c ∈ (⟨"l1\nl2\nl3", .absent, ["l1\nl2\nl3\nl4", "l1\nl2\nl3\nl4"],
          [1, 2], some "l1\nl2\nl3\nl4", 2, true, [], 0⟩ :
            PState).recorded ∧
        queueCount (⟨"l1\nl2\nl3", .absent,
          ["l1\nl2\nl3\nl4", "l1\nl2\nl3\nl4"],
          [1, 2], some "l1\nl2\nl3\nl4", 2, true, [], 0⟩ :
            PState).queue c = 0) ∨
      (c ∉ (⟨"l1\nl2\nl3", .absent, ["l1\nl2\nl3\nl4", "l1\nl2\nl3\nl4"],
          [1, 2], some "l1\nl2\nl3\nl4", 2, true, [], 0⟩ :
            PState).recorded ∧
        queueCount (⟨"l1\nl2\nl3", .absent,
          ["l1\nl2\nl3\nl4", "l1\nl2\nl3\nl4"],
          [1, 2], some "l1\nl2\nl3\nl4", 2, true, [], 0⟩ :
            PState).queue c = 1)) ∧
    (∀ c ∈ [SegText.ok [((1 : Int), "a")], SegText.ok [(2, "b")]].flatMap
        (fun g => (segUnits g).map Prod.fst),
      (c ∈ (⟨"l1\nl2\nl3", .absent, ["l1\nl2\nl3\nl4", "l1\nl2\nl3\nl4"],
          [1, 2], none, 2, false, [false], 0⟩ : PState).recorded ∧
        c ∉ missingReport (⟨"l1\nl2\nl3", .absent,
            ["l1\nl2\nl3\nl4", "l1\nl2\nl3\nl4"],
            [1, 2], none, 2, false, [false], 0⟩ : PState).recorded
          ([SegText.ok [((1 : Int), "a")], SegText.ok [(2, "b")]].flatMap
            (fun g => (segUnits g).map Prod.fst))) ∨
      (c ∉ (⟨"l1\nl2\nl3", .absent, ["l1\nl2\nl3\nl4", "l1\nl2\nl3\nl4"],
          [1, 2], none, 2, false, [false], 0⟩ : PState).recorded ∧
        c ∈ missingReport (⟨"l1\nl2\nl3", .absent,
            ["l1\nl2\nl3\nl4", "l1\nl2\nl3\nl4"],
            [1, 2], none, 2, false, [false], 0⟩ : PState).recorded
          ([SegText.ok [((1 : Int), "a")], SegText.ok [(2, "b")]].flatMap
            (fun g => (segUnits g).map Prod.fst)))) :=
  c2_coverage (fun t => t) "D" (fun _ => none)
    (fun _ => CallOutcome.ret "l1\nl2\nl3\nl4" (some true))
    [SegText.ok [(1, "a")], SegText.ok [(2, "b")]]
    ⟨"p", .absent, [], [], none, 0, true, [], 0⟩
    ⟨"l1\nl2\nl3", .absent, ["l1\nl2\nl3\nl4", "l1\nl2\nl3\nl4"],
      [1, 2], some "l1\nl2\nl3\nl4", 2, true, [], 0⟩
    ⟨"l1\nl2\nl3", .absent, ["l1\nl2\nl3\nl4", "l1\nl2\nl3\nl4"],
      [1, 2], none, 2, false, [false], 0⟩
    rfl rfl (by decide) rfl rfl

theorem retranslate_failed_lines_lineRuns (dflt : String)
    (tr : Nat → CallOutcome) (s : PState) :
    (retranslate_failed_lines dflt tr s).lineRuns = s.lineRuns := by
  unfold retranslate_failed_lines
  split
  · rfl
  · rfl
  · rfl
  · split
    · rfl
    · dsimp only
      exact (lineLoop_misc dflt tr _ [] _).2

/-- C5: under the Segmenter contract (a nonempty snapshot always yields a
stream), after a completed full run the line-by-line tier has been invoked
at most once, and whenever Failure Queue entries remain at the end it was
invoked exactly once: the tier is skipped only when no entries remained
after the batch-retry tier. -/
theorem c5_line_tier (cj : String → String) (dflt : String)
    (segs : List SegText)
    (segmenter : List QEntry → Option (List SegText))
    (tr : Nat → CallOutcome) (s0 sF : PState)
    (hsegtot : ∀ es, es ≠ [] → segmenter es ≠ none)
    (hfs : s0.failed_status = true) (hl : s0.lineRuns = 0)
    (hrun : translate_content cj dflt (some segs) segmenter tr s0 = .ok sF) :
    sF.lineRuns ≤ 1 ∧ (queueEntries sF.queue ≠ [] → sF.lineRuns = 1) := by
  unfold translate_content at hrun
  dsimp only at hrun
  cases hp : primaryLoop cj dflt tr segs { s0 with tt := none } with
  | error e => rw [hp] at hrun; cases hrun
  | ok s1 =>
    rw [hp] at hrun
    dsimp only at hrun
    obtain ⟨hfs1, _, hl1⟩ :=
      primaryLoop_misc cj dflt tr segs { s0 with tt := none } s1 hp
    cases hr : retryRounds cj segmenter tr 3 s1 with
    | error e => rw [hr] at hrun; cases hrun
    | ok s2 =>
      rw [hr] at hrun
      dsimp only at hrun
      have hl2 : s2.lineRuns = 0 :=
        (retryRounds_lineRuns cj segmenter tr 3 s1 s2 hr).trans
          (by simpa [hl] using hl1)
      split at hrun
      case isTrue h2f =>
        cases hrun
        rw [retranslate_failed_lines_lineRuns]
        constructor
        · simp [hl2]
        · intro _
          simp [hl2]
      case isFalse h2f =>
        cases hrun
        rcases retryRounds_empty cj segmenter tr hsegtot 3 s1 sF hr with
          heq | hemp
        · exfalso
          apply h2f
          rw [heq, hfs1]
          simp [hfs]
        · exact ⟨by simp [hl2], fun hne => absurd hemp hne⟩

/-- Witness for C5: a run whose unit fails every attempt; the batch-retry
round recovers nothing, the queue ends empty and the line tier is
skipped. -/
theorem c5_line_tier_witness :
    (⟨"p", .arr [], ["x", "x"], [], some "x", 4, false, [false], 0⟩ :
        PState).lineRuns ≤ 1 ∧
    (queueEntries (⟨"p", .arr [], ["x", "x"], [], some "x", 4, false,
        [false], 0⟩ : PState).queue ≠ [] →
      (⟨"p", .arr [], ["x", "x"], [], some "x", 4, false, [false], 0⟩ :
        PState).lineRuns = 1) :=
  c5_line_tier (fun t => t) "D" [SegText.ok [(1, "a")]]
    (fun es => some [SegText.ok (es.map fun e => (e.count, e.value))])
    (fun _ => CallOutcome.ret "x" none)
    ⟨"p", .absent, [], [], none, 0, true, [], 0⟩
    ⟨"p", .arr [], ["x", "x"], [], some "x", 4, false, [false], 0⟩
    (fun es _ => by simp) rfl rfl rfl

/-- C8: over a nonempty snapshot of distinct queued units none of which is
already recorded, the line-by-line tier ends with the Failure Queue file
holding exactly a sublist `failed` of the original entries (each
re-appended verbatim as its original `{count, value}` object, in order):
when some entries remain they are the persisted file content, and when
none remain the file is left as the empty array (`failed = []`); moreover
each snapshotted entry either got its unit recorded and is not in
`failed`, or stayed unrecorded and is in `failed` — exactly the entries
whose 2 attempts were both exhausted. -/
theorem c8_line_requeue (dflt : String) (tr : Nat → CallOutcome)
    (s : PState) (es : List QEntry)
    (hq : s.queue = .arr es) (hne : es ≠ [])
    (hnodup : (es.map QEntry.count).Nodup)
    (hrec : ∀ e ∈ es, e.count ∉ s.recorded) :
    ∃ failed : List QEntry, failed.Sublist es ∧
      (retranslate_failed_lines dflt tr s).queue = .arr failed ∧
      ∀ e ∈ es,
        (e.count ∈ (retranslate_failed_lines dflt tr s).recorded ∧
          e ∉ failed) ∨
        (e.count ∉ (retranslate_failed_lines dflt tr s).recorded ∧
          e ∈ failed) := by
  have hie : es.isEmpty = false := by
    cases es with
    | nil => exact absurd rfl hne
    | cons a l => rfl
  have hrfl : retranslate_failed_lines dflt tr s =
      { (lineLoop dflt tr es [] { s with queue := .arr [] }).2 with
        queue := .arr
          (lineLoop dflt tr es [] { s with queue := .arr [] }).1 } := by
    unfold retranslate_failed_lines
    rw [hq]
    simp [hie]
  obtain ⟨add, ha1, ha2⟩ :=
    lineLoop_sublist dflt tr es [] { s with queue := .arr [] }
  refine ⟨(lineLoop dflt tr es [] { s with queue := .arr [] }).1,
    ?_, ?_, ?_⟩
  · rw [ha1]
    simpa using ha2
  · rw [hrfl]
  · intro e he
    have hu := lineLoop_unit dflt tr es []
      { s with queue := .arr [] }
      (lineLoop dflt tr es [] { s with queue := .arr [] }).1
      (lineLoop dflt tr es [] { s with queue := .arr [] }).2
      rfl hnodup e he (by simpa using hrec e he) (by simp)
    rw [hrfl]
    simpa using hu

/-- Witness for C8: two queued units; the first exhausts both attempts and
is re-appended, the second succeeds and is recorded. -/
theorem c8_line_requeue_witness :
    ∃ failed : List QEntry,
      failed.Sublist [⟨1, "a"⟩, ⟨2, "b"⟩] ∧
      (retranslate_failed_lines "D"
        (fun k => if k < 2 then CallOutcome.ret "t" none
          else CallOutcome.ret "ok" (some true))
        ⟨"p", .arr [⟨1, "a"⟩, ⟨2, "b"⟩], [], [], none, 0, true, [],
          0⟩).queue = .arr failed ∧
      ∀ e ∈ [(⟨1, "a"⟩ : QEntry), ⟨2, "b"⟩],
        (e.count ∈ (retranslate_failed_lines "D"
            (fun k => if k < 2 then CallOutcome.ret "t" none
              else CallOutcome.ret "ok" (some true))
            ⟨"p", .arr [⟨1, "a"⟩, ⟨2, "b"⟩], [], [], none, 0, true, [],
              0⟩).recorded ∧ e ∉ failed) ∨
        (e.count ∉ (retranslate_failed_lines "D"
            (fun k => if k < 2 then CallOutcome.ret "t" none
              else CallOutcome.ret "ok" (some true))
            ⟨"p", .arr [⟨1, "a"⟩, ⟨2, "b"⟩], [], [], none, 0, true, [],
              0⟩).recorded ∧ e ∈ failed) :=
  c8_line_requeue "D"
    (fun k => if k < 2 then CallOutcome.ret "t" none
      else CallOutcome.ret "ok" (some true))
    ⟨"p", .arr [⟨1, "a"⟩, ⟨2, "b"⟩], [], [], none, 0, true, [], 0⟩
    [⟨1, "a"⟩, ⟨2, "b"⟩] rfl (by decide) (by decide) (by decide)

theorem hexVal_hexDigitChar : ∀ n : Nat, n < 16 →
    hexVal (hexDigitChar n) = some n := by decide

theorem escapeChars_cons (c : Char) (l : List Char) :
    escapeChars (c :: l) = escChar c ++ escapeChars l := by
  simp [escapeChars]

theorem escChar_length_pos (c : Char) : 1 ≤ (escChar c).length := by
  unfold escChar
  split_ifs <;> simp

theorem escapeChars_length (l : List Char) :
    l.length ≤ (escapeChars l).length := by
  induction l with
  | nil => simp [escapeChars]
  | cons c l ih =>
    rw [escapeChars_cons, List.length_append]
    have h1 := escChar_length_pos c
    simp only [List.length_cons]
    omega

theorem parseStringBody_escape :
    ∀ (l : List Char) (fuel : Nat) (r : List Char), l.length + 1 ≤ fuel →
    parseStringBody fuel (escapeChars l ++ '"' :: r) = some (l, r) := by
  intro l
  induction l with
  | nil =>
    intro fuel r hf
    cases fuel with
    | zero => omega
    | succ f => simp [escapeChars, parseStringBody]
  | cons c l ih =>
    intro fuel r hf
    cases fuel with
    | zero => simp at hf
    | succ f =>
      have hih : l.length + 1 ≤ f := by
        simp only [List.length_cons] at hf
        omega
      rw [escapeChars_cons, List.append_assoc]
      by_cases h1 : c = '"'
      · subst h1
        simp [escChar, parseStringBody, ih f r hih]
      by_cases h2 : c = '\\'
      · subst h2
        simp [escChar, parseStringBody, ih f r hih]
      by_cases h3 : c = Char.ofNat 8
      · subst h3
        simp [escChar, parseStringBody, ih f r hih]
      by_cases h4 : c = Char.ofNat 9
      · subst h4
        simp [escChar, parseStringBody, ih f r hih]
      by_cases h5 : c = Char.ofNat 10
      · subst h5
        simp [escChar, parseStringBody, ih f r hih]
      by_cases h6 : c = Char.ofNat 12
      · subst h6
        simp [escChar, parseStringBody, ih f r hih]
      by_cases h7 : c = Char.ofNat 13
      · subst h7
        simp [escChar, parseStringBody, ih f r hih]
      by_cases h8 : c.toNat < 32
      · have hchar : escChar c =
            ['\\', 'u', '0', '0', hexDigitChar (c.toNat / 16),
              hexDigitChar (c.toNat % 16)] := by
          simp [escChar, h1, h2, h3, h4, h5, h6, h7, h8]
        rw [hchar]
        have ha : c.toNat / 16 < 16 := by omega
        have hb : c.toNat % 16 < 16 := by omega
        have e0 : hexVal '0' = some 0 := by decide
        have hc1 : Char.ofNat
            (((0 * 16 + 0) * 16 + c.toNat / 16) * 16 + c.toNat % 16) = c := by
          rw [show ((0 * 16 + 0) * 16 + c.toNat / 16) * 16 + c.toNat % 16 =
            c.toNat from by omega]
          exact Char.ofNat_toNat c
        have hc2 : Char.ofNat (c.toNat / 16 * 16 + c.toNat % 16) = c := by
          rw [show c.toNat / 16 * 16 + c.toNat % 16 = c.toNat from by omega]
          exact Char.ofNat_toNat c
        simp [parseStringBody, e0, hexVal_hexDigitChar _ ha,
          hexVal_hexDigitChar _ hb, hc1, hc2, ih f r hih]
      · have hchar : escChar c = [c] := by
          simp [escChar, h1, h2, h3, h4, h5, h6, h7, h8]
        rw [hchar]
        simp [parseStringBody, h1, h2, ih f r hih]

theorem parseStringBody_escape_full (l r : List Char) :
    parseStringBody (escapeChars l ++ '"' :: r).length
      (escapeChars l ++ '"' :: r) = some (l, r) := by
  apply parseStringBody_escape
  have h := escapeChars_length l
  simp only [List.length_append, List.length_cons]
  omega

/-- C10: parsing the string produced by `_convert_failed_segments_to_json`
back as JSON yields exactly the single-key mapping from the string form of
the entry's count to the entry's value. -/
theorem c10_roundtrip (e : QEntry) :
    parseSingleObject (convert_failed_segments_to_json e) =
      some (toString e.count, e.value) := by
  unfold parseSingleObject convert_failed_segments_to_json jsonStringChars
  simp [skipWs, List.append_assoc, parseStringBody_escape_full]
  rw [parseStringBody_escape (toString e.count).data
    ((escapeChars (toString e.count).data).length +
      ((escapeChars e.value.data).length + 3 + 1 + 1 + 1 + 1))
    (':' :: ' ' :: '"' :: (escapeChars e.value.data ++ ['"', '\n', '}']))
    (by have := escapeChars_length (toString e.count).data; omega)]
  simp [skipWs, List.append_assoc]
  rw [parseStringBody_escape e.value.data
    ((escapeChars e.value.data).length + 3) ['\n', '}']
    (by have := escapeChars_length e.value.data; omega)]
  simp [skipWs]
